import Mathlib

/-!
Verification development for the routeme navigation app.

The definitions below are shallow embeddings of the JavaScript source:
  * `src/utils/eventBus.js` (storage half): the persisted search-history
    store (`saveSearchEntry` with its favorite-merging and capacity
    eviction logic);
  * `src/utils/mapHelpers.js`: Haversine distance, route-deviation check,
    duration formatting and polyline decoding;
  * `src/context/LocationContext.js`: the location/route state container;
  * `src/components/RouteDirections.js`: the routing fetch effect.

JavaScript numbers are modelled by `ℚ` where the code only ever performs
exact arithmetic on them (history keys, polyline scaling, duration
formatting) and by `ℝ` where the code calls transcendental functions
(Haversine trigonometry).  Timestamps (`Date.now()`) are passed in
explicitly as a `now : ℕ` parameter.  Fields that JavaScript callers may
omit (`undefined`) are modelled with `Option`.
-/

namespace RouteMe

/-! ## Search-history store (storage half of `src/utils/eventBus.js`) -/

/-- A stored history entry.  Mirrors the objects persisted by
`saveSearchEntry`: the stored `favorite` flag is always a boolean (line 111
of the source coerces it with `|| false`), and `placeId` may be absent.
`ℚ` stands in for the exact float coordinates compared with `===`. -/
structure HistoryEntry where
  placeId : Option String
  latitude : ℚ
  longitude : ℚ
  timestamp : ℕ
  favorite : Bool
deriving DecidableEq, Repr

/-- The caller-supplied argument of `saveSearchEntry`.  Its `favorite`
field is `Option Bool`: `none` models a caller that omits the field
(`undefined` in JavaScript), `some b` an explicit boolean. -/
structure SaveInput where
  placeId : Option String
  latitude : ℚ
  longitude : ℚ
  favorite : Option Bool
deriving DecidableEq, Repr

/-- `STORAGE_CAP = 50`, the maximum number of entries to keep
(non-favorites may be evicted). -/
def STORAGE_CAP : ℕ := 50

/-- The uniqueness-key test used both by the `find` on line 100 and the
duplicate `filter` on line 106 of the source: when both the incoming
entry and the stored one carry a (truthy) `placeId` they are compared by
`placeId`, otherwise by exact latitude/longitude equality. -/
def matchesKey (entry : SaveInput) (e : HistoryEntry) : Bool :=
  match entry.placeId, e.placeId with
  | some p, some q => q == p
  | _, _ => e.latitude == entry.latitude && e.longitude == entry.longitude

/-- Line 111 of the source:
`favorite: existing?.favorite || entry.favorite || false`.
JavaScript truthiness makes this the left-biased OR of the existing
match's flag and the caller's flag. -/
def resolveFavorite (existing : Option HistoryEntry) (fav : Option Bool) : Bool :=
  match existing with
  | some e => e.favorite || fav.getD false
  | none => fav.getD false

/-- The eviction loop of `saveSearchEntry` (lines 118-122), walking the
list tail-first.  The input list is the reversed store (so the JS index
`i` descending from the end corresponds to walking this list head-first),
`len` is the current length of the whole store (`toStore.length`, which
the loop re-reads after every `splice`).  Returns the kept elements (in
reversed order) together with the final length. -/
def evictStep : List HistoryEntry → ℕ → List HistoryEntry × ℕ
  | [], len => ([], len)
  | e :: rest, len =>
    if STORAGE_CAP < len ∧ e.favorite = false then
      evictStep rest (len - 1)
    else
      match evictStep rest len with
      | (r, lenF) => (e :: r, lenF)

/-- Lines 115-124 of the source: copy the list and, when it exceeds the
cap, remove non-favorite entries from the end while still over the cap. -/
def evictFromTail (l : List HistoryEntry) : List HistoryEntry :=
  if STORAGE_CAP < l.length then ((evictStep l.reverse l.length).1).reverse else l

/-- `saveSearchEntry` (lines 86-140 of the source) as a pure function on
the decoded stored list: find the existing match, drop all entries with
the same key, push the merged entry (with the fresh timestamp `now`) to
the front, then run capacity eviction. -/
def saveSearchEntry (entry : SaveInput) (now : ℕ) (list : List HistoryEntry) :
    List HistoryEntry :=
  let existing := list.find? fun e => matchesKey entry e
  let filtered := list.filter fun e => ! matchesKey entry e
  let newEntry : HistoryEntry :=
    { placeId := entry.placeId
      latitude := entry.latitude
      longitude := entry.longitude
      timestamp := now
      favorite := resolveFavorite existing entry.favorite }
  evictFromTail (newEntry :: filtered)

/-- The merged entry `saveSearchEntry` pushes to the front (line 111 of
the source, with the timestamp parameter standing for `Date.now()`). -/
def mergedEntry (entry : SaveInput) (now : ℕ) (list : List HistoryEntry) : HistoryEntry :=
  { placeId := entry.placeId
    latitude := entry.latitude
    longitude := entry.longitude
    timestamp := now
    favorite := resolveFavorite (list.find? fun e => matchesKey entry e) entry.favorite }

/-- A store of `STORAGE_CAP` favorited entries with distinct keys, the
state reached by favoriting fifty distinct places.  Used to exhibit the
behaviour of `saveSearchEntry` at the capacity boundary. -/
def favoriteFlood : List HistoryEntry :=
  (List.range STORAGE_CAP).map fun i =>
    { placeId := none, latitude := (i : ℚ), longitude := 0, timestamp := 0, favorite := true }

/-! ## Duration formatting (`formatDuration`, `src/utils/mapHelpers.js`) -/

/-- `Math.round` on an exact rational: JavaScript rounds half-way cases
toward positive infinity. -/
def jsRound (q : ℚ) : ℤ := ⌊q + 1 / 2⌋

/-- Truncation toward zero, as used by the JavaScript `%` operator. -/
def jsTrunc (q : ℚ) : ℤ := if q < 0 then ⌈q⌉ else ⌊q⌋

/-- The JavaScript remainder operator `a % b` (truncated division). -/
def jsMod (a b : ℚ) : ℚ := a - b * (jsTrunc (a / b) : ℚ)

/-- `formatDuration` (lines 78-85 of `mapHelpers.js`): durations under an
hour are rounded to whole minutes; otherwise hours use `Math.floor` and
the minutes remainder uses `Math.round`, computed independently. -/
def formatDuration (duration : ℚ) : String :=
  if duration < 60 then
    toString (jsRound duration) ++ " min"
  else
    toString ⌊duration / 60⌋ ++ "h " ++ toString (jsRound (jsMod duration 60)) ++ "m"

/-! ## Polyline decoding (`decodePolyline`, `src/utils/mapHelpers.js`)

JavaScript bitwise operators work on 32-bit two's-complement integers;
they are modelled on `ℤ` with explicit reduction modulo `2 ^ 32`. -/

/-- ToInt32: reduce an integer to the signed 32-bit range, as JavaScript
bitwise operators do. -/
def jsToInt32 (n : ℤ) : ℤ := (n + 2 ^ 31) % 2 ^ 32 - 2 ^ 31

/-- JavaScript `<<`: shift count is taken mod 32, result is a signed
32-bit integer. -/
def jsShl (x : ℤ) (shift : ℕ) : ℤ := jsToInt32 (x * 2 ^ (shift % 32))

/-- JavaScript `|` on signed 32-bit integers, via their unsigned
representatives. -/
def jsOr (a b : ℤ) : ℤ :=
  jsToInt32 (Int.ofNat ((a % 2 ^ 32).toNat ||| (b % 2 ^ 32).toNat))

/-- JavaScript `b & 0x1f` on a signed 32-bit integer: the low five bits
of the unsigned representative. -/
def jsAnd31 (b : ℤ) : ℤ := b % 2 ^ 32 % 32

/-- JavaScript `result >> 1` (arithmetic shift): floor division by two. -/
def jsShr1 (r : ℤ) : ℤ := (r - r % 2) / 2

/-- The inner `do … while (b >= 0x20)` loop of `decodePolyline`
(lines 141-145 / 153-157 of `mapHelpers.js`): consume base-63-offset
characters, OR their low five bits into `result` at the running `shift`,
until a character below `0x20 + 63` ends the chunk.  `none` models
running off the end of the string (where the JavaScript code would read
`NaN`). -/
def readChunk : List ℕ → ℕ → ℤ → Option (ℤ × List ℕ)
  | [], _, _ => none
  | c :: rest, shift, result =>
    let b : ℤ := (c : ℤ) - 63
    let result2 := jsOr result (jsShl (jsAnd31 b) shift)
    if 32 ≤ b then readChunk rest (shift + 5) result2 else some (result2, rest)

/-- Zig-zag sign decoding (lines 147 and 159 of the source):
`(result & 1) ? ~(result >> 1) : (result >> 1)`, with `~x = -x - 1`. -/
def zigzag (r : ℤ) : ℤ := if r % 2 = 1 then -(jsShr1 r) - 1 else jsShr1 r

/-- The outer `while (index < len)` loop of `decodePolyline`: read a
latitude chunk and a longitude chunk, accumulate the signed deltas, and
emit the pair scaled by `1e5` (the JavaScript float division `lat / 1e5`
is exact at this magnitude, so the exact rational is the faithful
value).  Recursion is fuelled by the number of remaining characters;
every chunk consumes at least one character. -/
def decodeSteps : ℕ → List ℕ → ℤ → ℤ → List (ℚ × ℚ)
  | 0, _, _, _ => []
  | fuel + 1, chars, lat, lng =>
    match readChunk chars 0 0 with
    | none => []
    | some (r1, rest1) =>
      let lat2 := lat + zigzag r1
      match readChunk rest1 0 0 with
      | none => []
      | some (r2, rest2) =>
        let lng2 := lng + zigzag r2
        (mkRat lat2 100000, mkRat lng2 100000) :: decodeSteps fuel rest2 lat2 lng2

/-- `decodePolyline` (lines 125-169 of `mapHelpers.js`) on the UTF-16
code units of the input string (all polyline characters are ASCII, so
`Char.toNat` agrees with `charCodeAt`).  An empty (falsy) string decodes
to the empty list. -/
def decodePolyline (encoded : String) : List (ℚ × ℚ) :=
  let codes := encoded.data.map Char.toNat
  decodeSteps codes.length codes 0 0

/-- The reference polyline from the Google polyline-algorithm
documentation, used as the test vector in the spec. -/
def referencePolyline : String := "_p~iF~ps|U_ulLnnqC_mqNvxq`@"

/-- The empty polyline string. -/
def emptyPolyline : String := ""

/-! ## Haversine distance and deviation check (`src/utils/mapHelpers.js`)

The trigonometric code is embedded over `ℝ`; `Math.sin`, `Math.cos`,
`Math.sqrt`, `Math.atan2` become their exact real counterparts. -/

/-- A coordinate pair as used by the geometry helpers. -/
structure Coord where
  latitude : ℝ
  longitude : ℝ

/-- Degree-to-radian conversion, line 13 of `mapHelpers.js`. -/
noncomputable def toRad (value : ℝ) : ℝ := value * Real.pi / 180

/-- `Math.atan2 y x` on the reals (the standard quadrant-aware
arctangent; the code only ever calls it with nonnegative arguments). -/
noncomputable def atan2 (y x : ℝ) : ℝ :=
  if 0 < x then Real.arctan (y / x)
  else if x < 0 then
    (if 0 ≤ y then Real.arctan (y / x) + Real.pi else Real.arctan (y / x) - Real.pi)
  else
    (if 0 < y then Real.pi / 2 else if y < 0 then -(Real.pi / 2) else 0)

/-- The Haversine intermediate `a` of lines 19-24 of the source:
`sin²(dLat/2) + cos(lat1)·cos(lat2)·sin²(dLon/2)`.  The IEEE-double
`Math.sin`/`Math.cos` are idealised as the exact real functions; this
idealisation is sound for order-of-magnitude/comparison statements such
as the deviation check, but it must not be used to decide exact-equality
questions (e.g. whether a distance is exactly zero), where the float
pipeline and the real one can disagree by rounding residues. -/
noncomputable def haversineTerm (coord1 coord2 : Coord) : ℝ :=
  Real.sin (toRad (coord2.latitude - coord1.latitude) / 2) *
      Real.sin (toRad (coord2.latitude - coord1.latitude) / 2) +
    Real.cos (toRad coord1.latitude) * Real.cos (toRad coord2.latitude) *
      Real.sin (toRad (coord2.longitude - coord1.longitude) / 2) *
      Real.sin (toRad (coord2.longitude - coord1.longitude) / 2)

/-- `calculateDistance` (lines 12-30 of `mapHelpers.js`): Haversine
great-circle distance with Earth radius 6371 km, over the exact-real
idealisation of the float trigonometry (see `haversineTerm` for its
scope of validity). -/
noncomputable def calculateDistance (coord1 coord2 : Coord) : ℝ :=
  6371 *
    (2 *
      atan2 (Real.sqrt (haversineTerm coord1 coord2))
        (Real.sqrt (1 - haversineTerm coord1 coord2)))

/-- The default `threshold` parameter of `hasDeviatedFromRoute`
(0.05 km, i.e. 50 meters). -/
noncomputable def deviationThresholdDefault : ℝ := 0.05

/-- The minimum-distance fold of `hasDeviatedFromRoute` (lines 49-56 of
the source): `minDistance` starts at `Infinity` (the top element) and is
lowered whenever a route point is strictly closer. -/
noncomputable def minDistFold (c : Coord) (coords : List Coord) : WithTop ℝ :=
  coords.foldl
    (fun m q =>
      if ((calculateDistance c q : ℝ) : WithTop ℝ) < m then
        ((calculateDistance c q : ℝ) : WithTop ℝ)
      else m)
    ⊤

/-- `hasDeviatedFromRoute` (lines 39-59 of `mapHelpers.js`): false when
the current location is missing or the route is empty; otherwise true
exactly when the minimum distance to the route exceeds the threshold. -/
def hasDeviatedFromRoute (currentLocation : Option Coord) (routeCoordinates : List Coord)
    (threshold : ℝ) : Prop :=
  match currentLocation with
  | none => False
  | some c =>
    if routeCoordinates.length = 0 then False
    else ((threshold : ℝ) : WithTop ℝ) < minDistFold c routeCoordinates

/-! ## Location/route state container (`src/context/LocationContext.js`) -/

/-- A destination object as stored in the context.  JavaScript objects
are open records; the fields modelled here are the ones the context and
its callers read. -/
structure Destination where
  name : String
  latitude : ℚ
  longitude : ℚ
  favorite : Bool
deriving DecidableEq, Repr

/-- One HTML-stripped direction step of a route. -/
structure RouteStep where
  instruction : String
  distanceText : String
  durationText : String
deriving DecidableEq, Repr

/-- The route-information snapshot stored in the context. -/
structure RouteInfo where
  distance : ℚ
  duration : ℚ
  steps : List RouteStep
deriving DecidableEq, Repr

/-- The slice of `LocationProvider` state touched by the destination and
route operations. -/
structure LocState where
  destination : Option Destination
  routeInfo : Option RouteInfo
  routeCoordinates : List (ℚ × ℚ)
  isLoadingRoute : Bool
  isJourneyActive : Bool
deriving DecidableEq, Repr

/-- A partial destination update as passed to `setDestinationMeta`:
every field is optional (absent fields are left alone on merge). -/
structure DestUpdate where
  name : Option String
  latitude : Option ℚ
  longitude : Option ℚ
  favorite : Option Bool
deriving DecidableEq, Repr

/-- `updateDestination` (lines 59-67 of `LocationContext.js`).  The body
begins with `console.log('…', dest.name)`: on a `null`/`undefined`
argument this dereference throws a `TypeError` before any state is
touched, which the embedding models as `Except.error`.  On a non-null
argument it stores the destination, clears the previous route and sets
the loading flag. -/
def updateDestination (dest : Option Destination) (st : LocState) : Except String LocState :=
  match dest with
  | none => Except.error "TypeError: cannot read name of null"
  | some d =>
    Except.ok
      { st with
        destination := some d
        routeCoordinates := []
        routeInfo := none
        isLoadingRoute := true }

/-- `clearDestination` (lines 83-89 of `LocationContext.js`). -/
def clearDestination (st : LocState) : LocState :=
  { st with
    destination := none
    routeCoordinates := []
    routeInfo := none
    isJourneyActive := false }

/-- `setDestinationMeta` (lines 73-78 of `LocationContext.js`): merge
partial fields into the current destination; when no destination is set
the update object itself becomes the destination (absent fields, which
JavaScript leaves `undefined`, are modelled by defaults). -/
def setDestinationMeta (updates : DestUpdate) (st : LocState) : LocState :=
  match st.destination with
  | none =>
    { st with
      destination :=
        some
          { name := updates.name.getD ""
            latitude := updates.latitude.getD 0
            longitude := updates.longitude.getD 0
            favorite := updates.favorite.getD false } }
  | some prev =>
    { st with
      destination :=
        some
          { name := updates.name.getD prev.name
            latitude := updates.latitude.getD prev.latitude
            longitude := updates.longitude.getD prev.longitude
            favorite := updates.favorite.getD prev.favorite } }

/-! ## Routing fetch (`src/components/RouteDirections.js`)

The fetch effect reads and writes two kinds of mutable cells: the
context state (`routeInfo`, `routeCoordinates`, `isLoadingRoute`) and
the component refs used for deduplication (`isFetchingRef`,
`lastFetchKeyRef`).  The network interaction is abstracted into a
`FetchResult` input: what the awaited response amounted to. -/

/-- The context slice the fetch effect can change. -/
structure CtxState where
  routeInfo : Option RouteInfo
  routeCoordinates : List (ℚ × ℚ)
  isLoadingRoute : Bool
deriving DecidableEq, Repr

/-- The deduplication refs of the component. -/
structure FetchRefs where
  isFetching : Bool
  lastFetchKey : Option String
deriving DecidableEq, Repr

/-- Outcome of awaiting the directions request: a parsed OK response
with at least one route, a response whose `status` is not `"OK"` (or
with no routes), or a thrown network/parse error. -/
inductive FetchResult where
  | ok : RouteInfo → List (ℚ × ℚ) → FetchResult
  | apiError : String → FetchResult
  | networkError : String → FetchResult
deriving DecidableEq, Repr

/-- The fallible part of the `try` block: awaiting `fetch`/`json` and
checking the response envelope.  A network error is a thrown exception,
modelled as `Except.error`; a non-OK status is a normal value that the
code routes to its `else` branch, modelled as `Except.ok none`. -/
def fetchAttempt (res : FetchResult) : Except String (Option (RouteInfo × List (ℚ × ℚ))) :=
  match res with
  | FetchResult.ok info points => Except.ok (some (info, points))
  | FetchResult.apiError _ => Except.ok none
  | FetchResult.networkError msg => Except.error msg

/-- The request key of line 70:
`` `${origin.latitude},${origin.longitude}-${destination.latitude},${destination.longitude}` ``. -/
def routeKey (origin destination : ℚ × ℚ) : String :=
  toString origin.1 ++ "," ++ toString origin.2 ++ "-" ++
    toString destination.1 ++ "," ++ toString destination.2

/-- The `fetchRoute` closure (lines 82-132 of `RouteDirections.js`):
mark the fetch in flight, record the key, raise the loading flag, run
the guarded `try` body (success calls `updateRoute`, failure and
API errors only log), and in `finally` clear the loading flag and the
in-flight marker.  The `catch` swallows the thrown error, so the
function is total even when `fetchAttempt` errors. -/
def runFetchRoute (key : String) (res : FetchResult) (ctx : CtxState) :
    CtxState × FetchRefs :=
  let ctx1 : CtxState := { ctx with isLoadingRoute := true }
  let ctx2 : CtxState :=
    match fetchAttempt res with
    | Except.ok (some (info, points)) =>
      { ctx1 with routeInfo := some info, routeCoordinates := points }
    | Except.ok none => ctx1
    | Except.error _ => ctx1
  ({ ctx2 with isLoadingRoute := false }, { isFetching := false, lastFetchKey := some key })

/-- The fetch `useEffect` body (lines 64-135 of `RouteDirections.js`):
bail out when origin, destination or the API key is missing; skip when a
fetch is in flight or the same key was already fetched; otherwise run
`fetchRoute`.  The boolean result records whether the underlying fetch
was invoked. -/
def routeFetchEffect (origin destination : Option (ℚ × ℚ)) (hasApiKey : Bool)
    (res : FetchResult) (ctx : CtxState) (refs : FetchRefs) :
    (CtxState × FetchRefs) × Bool :=
  match origin, destination with
  | some o, some d =>
    if hasApiKey = false then ((ctx, refs), false)
    else if refs.isFetching = true then ((ctx, refs), false)
    else if refs.lastFetchKey = some (routeKey o d) then ((ctx, refs), false)
    else (runFetchRoute (routeKey o d) res ctx, true)
  | _, _ => ((ctx, refs), false)

/-- A stand-in message for a failed directions response. -/
def failMessage : String := "status not OK"

/-- A sequence of fetch-effect triggers, as produced by successive
renders with changing origin/destination props: each trigger runs
`routeFetchEffect` on the state the previous one left (with the API key
present and the fetch outcome fixed), and the list records whether each
trigger invoked the underlying fetch. -/
def triggerSeq : List (Option (ℚ × ℚ) × Option (ℚ × ℚ)) → FetchResult →
    CtxState × FetchRefs → (CtxState × FetchRefs) × List Bool
  | [], _, st => (st, [])
  | (o, d) :: rest, res, st =>
    match routeFetchEffect o d true res st.1 st.2 with
    | (st2, invoked) =>
      match triggerSeq rest res st2 with
      | (stF, flags) => (stF, invoked :: flags)

/-! ## Lemmas about the eviction loop -/

theorem evictStep_cons_drop (e : HistoryEntry) (rest : List HistoryEntry) (len : ℕ)
    (h : STORAGE_CAP < len ∧ e.favorite = false) :
    evictStep (e :: rest) len = evictStep rest (len - 1) := by
  simp only [evictStep, if_pos h]

theorem evictStep_cons_keep (e : HistoryEntry) (rest : List HistoryEntry) (len : ℕ)
    (h : ¬(STORAGE_CAP < len ∧ e.favorite = false)) :
    evictStep (e :: rest) len = (e :: (evictStep rest len).1, (evictStep rest len).2) := by
  simp only [evictStep, if_neg h]

theorem evictStep_sublist (l : List HistoryEntry) : ∀ len : ℕ, (evictStep l len).1.Sublist l := by
  induction l with
  | nil => intro len; simp [evictStep]
  | cons a rest ih =>
    intro len
    by_cases h : STORAGE_CAP < len ∧ a.favorite = false
    · rw [evictStep_cons_drop a rest len h]
      exact (ih (len - 1)).trans (List.sublist_cons_self a rest)
    · rw [evictStep_cons_keep a rest len h]
      exact (ih len).cons₂ a

theorem evictStep_bound (l : List HistoryEntry) : ∀ len : ℕ,
    ((evictStep l len).1).length + len ≤ STORAGE_CAP + l.length ∨
      ∀ e ∈ (evictStep l len).1, e.favorite = true := by
  induction l with
  | nil =>
    intro len
    right
    intro e he
    simp [evictStep] at he
  | cons a rest ih =>
    intro len
    by_cases h : STORAGE_CAP < len ∧ a.favorite = false
    · rw [evictStep_cons_drop a rest len h]
      rcases ih (len - 1) with h1 | h1
      · left
        have hcap : STORAGE_CAP < len := h.1
        simp only [List.length_cons]
        omega
      · right; exact h1
    · rw [evictStep_cons_keep a rest len h]
      by_cases hlen : STORAGE_CAP < len
      · have hfav : a.favorite = true := by
          rcases Bool.eq_false_or_eq_true a.favorite with hf | hf
          · exact hf
          · exact absurd ⟨hlen, hf⟩ h
        rcases ih len with h1 | h1
        · left; simp only [List.length_cons]; omega
        · right
          intro e he
          rcases List.mem_cons.mp he with rfl | hmem
          · exact hfav
          · exact h1 e hmem
      · left
        have hle : (evictStep rest len).1.length ≤ rest.length :=
          (evictStep_sublist rest len).length_le
        simp only [List.length_cons]
        omega

theorem evictStep_len (l : List HistoryEntry) : ∀ len : ℕ,
    (evictStep l len).2 + l.length = len + ((evictStep l len).1).length := by
  induction l with
  | nil => intro len; simp [evictStep]
  | cons a rest ih =>
    intro len
    by_cases h : STORAGE_CAP < len ∧ a.favorite = false
    · rw [evictStep_cons_drop a rest len h]
      have h1 := ih (len - 1)
      have hcap : STORAGE_CAP < len := h.1
      simp only [List.length_cons]
      omega
    · rw [evictStep_cons_keep a rest len h]
      have h1 := ih len
      simp only [List.length_cons]
      omega

theorem evictStep_append (x : HistoryEntry) (l : List HistoryEntry) : ∀ len : ℕ,
    evictStep (l ++ [x]) len =
      if STORAGE_CAP < (evictStep l len).2 ∧ x.favorite = false then
        ((evictStep l len).1, (evictStep l len).2 - 1)
      else ((evictStep l len).1 ++ [x], (evictStep l len).2) := by
  induction l with
  | nil =>
    intro len
    by_cases h : STORAGE_CAP < len ∧ x.favorite = false
    · rw [List.nil_append, evictStep_cons_drop x [] len h]
      simp [evictStep, h]
    · rw [List.nil_append, evictStep_cons_keep x [] len h]
      simp [evictStep, h]
  | cons a rest ih =>
    intro len
    by_cases h : STORAGE_CAP < len ∧ a.favorite = false
    · rw [List.cons_append, evictStep_cons_drop a (rest ++ [x]) len h,
        evictStep_cons_drop a rest len h, ih (len - 1)]
    · rw [List.cons_append, evictStep_cons_keep a (rest ++ [x]) len h,
        evictStep_cons_keep a rest len h, ih len]
      split_ifs with hc
      · rfl
      · simp

theorem evictFromTail_cons (x : HistoryEntry) (xs : List HistoryEntry)
    (h : x.favorite = true ∨ (xs.filter fun e => e.favorite).length < STORAGE_CAP) :
    ∃ r, evictFromTail (x :: xs) = x :: r ∧ r.Sublist xs := by
  unfold evictFromTail
  split_ifs with hlen
  · have hkey :
        evictStep ((x :: xs).reverse) (x :: xs).length =
          evictStep (xs.reverse ++ [x]) (xs.length + 1) := by
      rw [List.reverse_cons, List.length_cons]
    rw [hkey, evictStep_append x xs.reverse (xs.length + 1)]
    have hcond : ¬(STORAGE_CAP < (evictStep xs.reverse (xs.length + 1)).2 ∧
        x.favorite = false) := by
      rcases h with hf | hflt
      · intro hc
        rw [hf] at hc
        cases hc.2
      · intro hc
        have hl := evictStep_len xs.reverse (xs.length + 1)
        rw [List.length_reverse] at hl
        rcases evictStep_bound xs.reverse (xs.length + 1) with hb | hb
        · rw [List.length_reverse] at hb
          omega
        · have hfe : (evictStep xs.reverse (xs.length + 1)).1.filter (fun e => e.favorite) =
              (evictStep xs.reverse (xs.length + 1)).1 :=
            List.filter_eq_self.mpr fun a ha => hb a ha
          have hle1 : (evictStep xs.reverse (xs.length + 1)).1.length ≤
              (xs.filter fun e => e.favorite).length := by
            calc (evictStep xs.reverse (xs.length + 1)).1.length
                = ((evictStep xs.reverse (xs.length + 1)).1.filter
                    (fun e => e.favorite)).length := by rw [hfe]
              _ ≤ ((xs.reverse.filter fun e => e.favorite)).length :=
                  ((evictStep_sublist xs.reverse (xs.length + 1)).filter _).length_le
              _ = (xs.filter fun e => e.favorite).length := by
                  rw [List.filter_reverse, List.length_reverse]
          omega
    rw [if_neg hcond]
    refine ⟨(evictStep xs.reverse (xs.length + 1)).1.reverse, ?_, ?_⟩
    · rw [List.reverse_append]
      simp
    · have := (evictStep_sublist xs.reverse (xs.length + 1)).reverse
      simpa using this
  · exact ⟨xs, rfl, List.Sublist.refl xs⟩

theorem saveSearchEntry_eq (entry : SaveInput) (now : ℕ) (list : List HistoryEntry) :
    saveSearchEntry entry now list =
      evictFromTail (mergedEntry entry now list :: list.filter fun e => ! matchesKey entry e) :=
  rfl

theorem matchesKey_mergedEntry (entry : SaveInput) (now : ℕ) (list : List HistoryEntry) :
    matchesKey entry (mergedEntry entry now list) = true := by
  rcases h : entry.placeId with _ | p <;> simp [matchesKey, mergedEntry, h]

theorem saveSearchEntry_head (entry : SaveInput) (now : ℕ) (list : List HistoryEntry)
    (h : (mergedEntry entry now list).favorite = true ∨
      ((list.filter fun e => ! matchesKey entry e && e.favorite).length < STORAGE_CAP)) :
    ∃ r, saveSearchEntry entry now list = mergedEntry entry now list :: r ∧
      r.Sublist (list.filter fun e => ! matchesKey entry e) := by
  rw [saveSearchEntry_eq]
  apply evictFromTail_cons
  rcases h with h1 | h1
  · exact Or.inl h1
  · right
    rw [List.filter_filter]
    have hswap : List.filter (fun e => e.favorite && ! matchesKey entry e) list =
        List.filter (fun e => ! matchesKey entry e && e.favorite) list :=
      List.filter_congr fun a _ => by rw [Bool.and_comm]
    rw [hswap]
    exact h1

/-! ## Claims about the search-history store -/

/-- Claim C1, counterexample: saving an entry that explicitly sets
`favorite := false` over an existing match whose `favorite` is `true`
stores `favorite = true`, not `false` as the claim states — the JS
truthiness chain `existing?.favorite || entry.favorite || false` ignores
an explicit `false` from the caller. -/
theorem C1_counterexample :
    ((saveSearchEntry { placeId := none, latitude := 1, longitude := 2, favorite := some false }
          10
          [{ placeId := none, latitude := 1, longitude := 2, timestamp := 5, favorite := true }]).map
        (fun e => e.favorite) = [true]) ∧
      ({ placeId := none, latitude := 1, longitude := 2, favorite := some false } :
        SaveInput).favorite = some false := by
  decide

/-- Claim C1, amended: for every save whose key matches a stored entry,
the stored entry's favorite flag is the truthiness-OR of the existing
match's flag and the caller's flag (`existing?.favorite ||
entry.favorite || false`, with an omitted caller flag counting as
false): existing `true` + caller `false` stores `true`, existing `false`
+ caller `true` stores `true`, existing `false` + caller omitted stores
`false`.  The merged entry sits at the front whenever it survives the
cap eviction, i.e. when the merged flag is true or fewer than fifty
favorited other-key entries are stored. -/
theorem C1_amended (entry : SaveInput) (now : ℕ) (list : List HistoryEntry)
    (ex : HistoryEntry) (hfind : list.find? (fun e => matchesKey entry e) = some ex)
    (hsurv : (ex.favorite || entry.favorite.getD false) = true ∨
      (list.filter fun e => ! matchesKey entry e && e.favorite).length < STORAGE_CAP) :
    (saveSearchEntry entry now list).head? =
      some
        { placeId := entry.placeId, latitude := entry.latitude, longitude := entry.longitude,
          timestamp := now, favorite := (ex.favorite || entry.favorite.getD false) } := by
  have hm2 : mergedEntry entry now list =
      { placeId := entry.placeId, latitude := entry.latitude, longitude := entry.longitude,
        timestamp := now, favorite := (ex.favorite || entry.favorite.getD false) } := by
    unfold mergedEntry
    rw [hfind]
    rfl
  have hh : (mergedEntry entry now list).favorite = true ∨
      (list.filter fun e => ! matchesKey entry e && e.favorite).length < STORAGE_CAP := by
    rcases hsurv with h1 | h1
    · exact Or.inl (by rw [hm2]; exact h1)
    · exact Or.inr h1
  obtain ⟨r, hr, -⟩ := saveSearchEntry_head entry now list hh
  rw [hr, hm2]
  rfl

/-- Witness for `C1_amended` at a concrete store covering the
unfavorited-match case: the existing match at key (1,2) has
`favorite = false` and the caller explicitly passes `some true`, so the
stored flag is `false || true`. -/
theorem C1_amended_witness :
    (saveSearchEntry { placeId := none, latitude := 1, longitude := 2, favorite := some true }
          10
          [{ placeId := none, latitude := 1, longitude := 2, timestamp := 5, favorite := false }]).head? =
      some
        { placeId := none, latitude := 1, longitude := 2, timestamp := 10,
          favorite := true } :=
  C1_amended _ 10 _
    { placeId := none, latitude := 1, longitude := 2, timestamp := 5, favorite := false }
    (by decide) (Or.inl (by decide))

/-- Claim C3, counterexample: saving a non-favorited entry with a fresh
key into a store of fifty favorited entries evicts the entry just saved
(the eviction loop reaches index 0), so afterwards the list holds zero
entries for the saved key instead of exactly one at the front. -/
theorem C3_counterexample :
    (saveSearchEntry { placeId := none, latitude := 999, longitude := 0, favorite := none } 7
          favoriteFlood).countP
        (fun e =>
          matchesKey { placeId := none, latitude := 999, longitude := 0, favorite := none } e) =
      0 := by
  decide

/-- Claim C3, amended: provided the merged entry is favorited or the
store holds fewer than fifty favorited non-matching entries (otherwise
the new entry itself is evicted), after `saveSearchEntry` the list holds
exactly one entry for the saved key, that entry is at the front with the
fresh timestamp, and when the caller omits `favorite` the flag of the
prior entry with that key is preserved. -/
theorem C3_upsert_unique_front (entry : SaveInput) (now : ℕ) (list : List HistoryEntry)
    (h : (mergedEntry entry now list).favorite = true ∨
      (list.filter fun e => ! matchesKey entry e && e.favorite).length < STORAGE_CAP) :
    (saveSearchEntry entry now list).head? = some (mergedEntry entry now list) ∧
      (saveSearchEntry entry now list).countP (fun e => matchesKey entry e) = 1 ∧
      (mergedEntry entry now list).timestamp = now ∧
      ∀ ex, entry.favorite = none → list.find? (fun e => matchesKey entry e) = some ex →
        (mergedEntry entry now list).favorite = ex.favorite := by
  obtain ⟨r, hr, hsub⟩ := saveSearchEntry_head entry now list h
  refine ⟨?_, ?_, rfl, ?_⟩
  · rw [hr]
    rfl
  · rw [hr, List.countP_cons]
    have hf0 : (list.filter fun e => ! matchesKey entry e).countP
        (fun e => matchesKey entry e) = 0 :=
      List.countP_eq_zero.mpr fun a ha => by
        have hm := (List.mem_filter.mp ha).2
        simp only [Bool.not_eq_eq_eq_not, Bool.not_true] at hm
        simp [hm]
    have hle := List.Sublist.countP_le (fun e => matchesKey entry e) hsub
    have h0 : r.countP (fun e => matchesKey entry e) = 0 := by omega
    rw [h0, if_pos (matchesKey_mergedEntry entry now list)]
  · intro ex hnone hfind
    unfold mergedEntry
    rw [hfind]
    simp [resolveFavorite, hnone]

/-- Witness for `C3_upsert_unique_front` at a concrete input: saving
into the empty store. -/
theorem C3_upsert_unique_front_witness :
    (saveSearchEntry { placeId := none, latitude := 4, longitude := 5, favorite := none } 3
        []).head? =
      some (mergedEntry { placeId := none, latitude := 4, longitude := 5, favorite := none } 3
        []) :=
  (C3_upsert_unique_front { placeId := none, latitude := 4, longitude := 5, favorite := none } 3
      [] (Or.inr (by decide))).1

/-! ## Claims about the geometry and formatting helpers -/

/-- Claim C5: the empty string decodes to the empty sequence, and the
reference polyline decodes to exactly the documented points
(38.5, -120.2), (40.7, -120.95), (43.252, -126.453), each coordinate the
accumulated signed delta scaled by 1e5. -/
theorem C5_decode_reference :
    decodePolyline emptyPolyline = [] ∧
      decodePolyline referencePolyline =
        [(mkRat 3850000 100000, mkRat (-12020000) 100000),
          (mkRat 4070000 100000, mkRat (-12095000) 100000),
          (mkRat 4325200 100000, mkRat (-12645300) 100000)] ∧
      mkRat 3850000 100000 = 38.5 ∧ mkRat (-12020000) 100000 = -120.2 ∧
      mkRat 4070000 100000 = 40.7 ∧ mkRat (-12095000) 100000 = -120.95 ∧
      mkRat 4325200 100000 = 43.252 ∧ mkRat (-12645300) 100000 = -126.453 := by
  refine ⟨by decide, by decide, ?_, ?_, ?_, ?_, ?_, ?_⟩ <;> rw [Rat.mkRat_eq_div] <;> norm_num

/-- Claim C10: for the duration 119.5 minutes (at least an hour),
`formatDuration` renders the minutes component as 60: hours use floor
and minutes use round independently, so 59.5 rounds up to 60 without
carrying into the hour. -/
theorem C10_minutes_render_sixty :
    (60 : ℚ) ≤ 239 / 2 ∧ formatDuration (239 / 2) = "1h 60m" := by
  constructor
  · norm_num
  · have hlt : ¬((239 : ℚ) / 2 < 60) := by norm_num
    unfold formatDuration
    rw [if_neg hlt]
    have h1 : ⌊(239 : ℚ) / 2 / 60⌋ = 1 := by norm_num
    have h2 : jsRound (jsMod ((239 : ℚ) / 2) 60) = 60 := by
      rw [jsMod, jsTrunc, jsRound]
      norm_num
    rw [h1, h2]
    decide

/-! ## Claims about the state container and the routing fetch -/

/-- Claim C9: `updateDestination` dereferences `dest.name` before doing
anything else, so a null destination makes it throw with all state
untouched, while a non-null destination never throws and replaces the
destination (clearing the old route and raising the loading flag);
`setDestinationMeta` always leaves a destination set, and only
`clearDestination` sets it back to `none`. -/
theorem C9_updateDestination_null_throws :
    (∀ st : LocState, ∃ msg, updateDestination none st = Except.error msg) ∧
      (∀ (d : Destination) (st : LocState),
          updateDestination (some d) st =
            Except.ok
              { st with
                destination := some d
                routeCoordinates := []
                routeInfo := none
                isLoadingRoute := true }) ∧
      (∀ (u : DestUpdate) (st : LocState),
          Option.isSome (setDestinationMeta u st).destination = true) ∧
      (∀ st : LocState, (clearDestination st).destination = none) := by
  refine ⟨fun st => ⟨_, rfl⟩, fun d st => rfl, ?_, fun st => rfl⟩
  intro u st
  cases h : st.destination <;> simp [setDestinationMeta, h]

/-- Claim C7: when the awaited directions response has a non-OK status,
or the fetch throws, `fetchRoute` leaves `routeInfo` and
`routeCoordinates` exactly as they were, returns normally (the `catch`
swallows the inner `Except.error`), and the only context change is the
cleared loading flag. -/
theorem C7_failure_leaves_route_untouched :
    (∀ (key s : String) (ctx : CtxState),
        runFetchRoute key (FetchResult.apiError s) ctx =
          ({ ctx with isLoadingRoute := false },
            { isFetching := false, lastFetchKey := some key })) ∧
      (∀ (key msg : String) (ctx : CtxState),
          runFetchRoute key (FetchResult.networkError msg) ctx =
            ({ ctx with isLoadingRoute := false },
              { isFetching := false, lastFetchKey := some key })) ∧
      ∀ msg : String, fetchAttempt (FetchResult.networkError msg) = Except.error msg := by
  exact ⟨fun key s ctx => rfl, fun key msg ctx => rfl, fun msg => rfl⟩

/-- Claim C8, counterexample: the component keeps a single
`lastFetchKeyRef` cell, so the trigger sequence key A, key B, key A
invokes the underlying fetch all three times — the intervening key-B
fetch overwrites the recorded key and the third trigger re-invokes the
fetch for key A, refuting "the fetch function is invoked only once per
key" for completed fetches. -/
theorem C8_counterexample :
    (triggerSeq
        [(some (0, 0), some (1, 1)), (some (0, 0), some (2, 2)), (some (0, 0), some (1, 1))]
        (FetchResult.apiError failMessage)
        (⟨none, [], false⟩, ⟨false, none⟩)).2 = [true, true, true] := by
  decide

/-- Claim C8, amended: deduplication is against the in-flight flag and
the single most recently fetched key only.  Immediately retriggering
with the same origin and destination after any earlier trigger never
invokes the underlying fetch again; a trigger that arrives while
`isFetchingRef` is set is a no-op; and a trigger whose key equals the
recorded `lastFetchKeyRef` is suppressed without any state change.  (An
intervening fetch for a different key overwrites the recorded key, after
which the earlier key is fetched anew.) -/
theorem C8_dedup_last_key :
    (∀ (origin destination : Option (ℚ × ℚ)) (hasKey : Bool) (res res2 : FetchResult)
        (ctx : CtxState) (refs : FetchRefs),
        (routeFetchEffect origin destination hasKey res2
            (routeFetchEffect origin destination hasKey res ctx refs).1.1
            (routeFetchEffect origin destination hasKey res ctx refs).1.2).2 = false) ∧
      (∀ (origin destination : Option (ℚ × ℚ)) (res : FetchResult) (ctx : CtxState)
          (k : Option String) (hasKey : Bool),
          routeFetchEffect origin destination hasKey res ctx
              { isFetching := true, lastFetchKey := k } =
            ((ctx, { isFetching := true, lastFetchKey := k }), false)) ∧
      ∀ (o d : ℚ × ℚ) (hasKey : Bool) (res : FetchResult) (ctx : CtxState),
          routeFetchEffect (some o) (some d) hasKey res ctx
              { isFetching := false, lastFetchKey := some (routeKey o d) } =
            ((ctx, { isFetching := false, lastFetchKey := some (routeKey o d) }), false) := by
  refine ⟨?_, ?_, ?_⟩
  · intro origin destination hasKey res res2 ctx refs
    rcases origin with _ | o
    · rfl
    rcases destination with _ | d
    · rfl
    rcases hasKey with _ | _
    · rfl
    by_cases hf : refs.isFetching = true
    · have h1 : routeFetchEffect (some o) (some d) true res ctx refs = ((ctx, refs), false) := by
        simp [routeFetchEffect, hf]
      rw [h1]
      simp [routeFetchEffect, hf]
    · by_cases hk : refs.lastFetchKey = some (routeKey o d)
      · have h1 : routeFetchEffect (some o) (some d) true res ctx refs = ((ctx, refs), false) := by
          simp [routeFetchEffect, hf, hk]
        rw [h1]
        simp [routeFetchEffect, hf, hk]
      · have h1 : routeFetchEffect (some o) (some d) true res ctx refs =
            (runFetchRoute (routeKey o d) res ctx, true) := by
          simp [routeFetchEffect, hf, hk]
        rw [h1]
        have h2 : (runFetchRoute (routeKey o d) res ctx).2 =
            { isFetching := false, lastFetchKey := some (routeKey o d) } := rfl
        simp [routeFetchEffect, h2]
  · intro origin destination res ctx k hasKey
    rcases origin with _ | o
    · rfl
    rcases destination with _ | d
    · rfl
    rcases hasKey with _ | _ <;> rfl
  · intro o d hasKey res ctx
    rcases hasKey with _ | _
    · rfl
    · simp [routeFetchEffect]

/-! ## Lemmas about the deviation check -/

theorem lt_ite_min (t d m : WithTop ℝ) : (t < if d < m then d else m) ↔ t < d ∧ t < m := by
  split_ifs with h
  · exact ⟨fun h1 => ⟨h1, h1.trans h⟩, And.left⟩
  · push_neg at h
    exact ⟨fun h1 => ⟨h1.trans_le h, h1⟩, And.right⟩

theorem minDistFold_lt (c : Coord) (t : WithTop ℝ) (l : List Coord) : ∀ m : WithTop ℝ,
    (t <
        l.foldl
          (fun m q =>
            if ((calculateDistance c q : ℝ) : WithTop ℝ) < m then
              ((calculateDistance c q : ℝ) : WithTop ℝ)
            else m)
          m ↔
      t < m ∧ ∀ q ∈ l, t < ((calculateDistance c q : ℝ) : WithTop ℝ)) := by
  induction l with
  | nil => intro m; simp
  | cons q l ih =>
    intro m
    rw [List.foldl_cons, ih, lt_ite_min]
    simp only [List.forall_mem_cons]
    tauto

/-- Claim C6: `hasDeviatedFromRoute` is false whenever the current
location is missing or the route is empty, for every threshold; on a
non-empty route with a current location it holds exactly when every
route point is farther than the threshold — that is, when the minimum
distance to the route exceeds it.  The default threshold is 0.05 km. -/
theorem C6_deviation_iff :
    (∀ (coords : List Coord) (t : ℝ), hasDeviatedFromRoute none coords t ↔ False) ∧
      (∀ (c : Coord) (t : ℝ), hasDeviatedFromRoute (some c) [] t ↔ False) ∧
      (∀ (c p : Coord) (ps : List Coord) (t : ℝ),
          hasDeviatedFromRoute (some c) (p :: ps) t ↔
            ∀ q ∈ p :: ps, t < calculateDistance c q) ∧
      deviationThresholdDefault = 1 / 20 := by
  refine ⟨fun coords t => Iff.rfl, fun c t => ?_, ?_, by norm_num [deviationThresholdDefault]⟩
  · simp [hasDeviatedFromRoute]
  · intro c p ps t
    show (if (p :: ps).length = 0 then False
        else ((t : ℝ) : WithTop ℝ) < minDistFold c (p :: ps)) ↔ _
    rw [if_neg (by simp)]
    unfold minDistFold
    rw [minDistFold_lt]
    simp [WithTop.coe_lt_coe]

end RouteMe
